import Mathlib

/-!
Verification model of the lisp interpreter (crate root `lib.rs`, builtins in
`builtin.rs`).

Scope and provenance of the embedding:
* `Lval`, `Lerr`, `LerrType`, the environment chain (`Lenv`), its operations
  (`push`, `pop`, `insert`, `insert_last`, `get`), the value equality of the
  `PartialEq` impl, and every builtin (`builtin_op`, `builtin_add`, ...,
  `builtin_def`, `builtin_lambda`, `builtin_exit`) are translated from
  `lib.rs` and `builtin.rs`.
* The environment-aware evaluator itself (the `eval`/`eval_sexpression` that
  `builtin.rs` calls as `eval::eval(env, lval)`) is not present in the source
  tree: the `eval.rs` on disk is an earlier, pre-environment iteration of the
  project (it works on a different `Expression` type, without environments,
  lambdas, `def` or symbol lookup, and does not compile against the crate
  root).  The evaluator here (`evalFuel`, `evalSexprWith`, `evalItemsWith`,
  `applyLambdaWith`) is therefore modelled from the spec, sections 4.2-4.3;
  see the doc comments on those definitions.
* Numbers: the source uses `f64`.  Every claim under verification only
  exercises exact small-integer arithmetic (and one exact division), so the
  numeric type is modelled as `Rat`; rounding behaviour of `f64` is outside
  the claims.  The `y == 0_f64` divisor test becomes an exact `= 0` test.
* `HashMap<String, Lval>` frames are modelled as association lists with
  unique keys (`frameInsert` replaces an existing binding in place, like
  `HashMap::insert`); `Lenv`'s singly-linked chain of frames (innermost
  first) is modelled as a `List` of frames, head innermost.
* Error `message` strings are built like the source's `format!` calls; where
  the source splices a `{:?}` debug rendering, `lvalDebug` mirrors the
  `fmt::Debug` impl (float and vector formatting approximated; no claim
  depends on message text).
-/

/-- The closed error taxonomy of `LerrType` in lib.rs. -/
inductive LerrType where
  | DivZero
  | BadOp
  | BadNum
  | IncorrectParamCount
  | EmptyList
  | WrongType
  | UnboundSymbol
  | Interrupt
deriving DecidableEq

/-- Translation of `Lerr` from lib.rs: an error kind, fixed details text, and a contextual
message. -/
structure Lerr where
  etype : LerrType
  details : String
  message : String
deriving DecidableEq

/-- Translation of `Lerr::new` from lib.rs: derives the `details` text from the kind. -/
def Lerr.new (etype : LerrType) (message : String) : Lerr :=
  let msg := match etype with
    | .DivZero => "Cannot Divide By Zero"
    | .BadOp => "Invalid Operator"
    | .BadNum => "Invalid Operand"
    | .IncorrectParamCount => "Incorrect Number of Params passed to function"
    | .WrongType => "Incorrect Data Type used"
    | .EmptyList => "Empty List passed to function"
    | .UnboundSymbol => "This Symbol has not been Defined"
    | .Interrupt => "The program is exiting"
  { etype := etype, details := msg, message := message }

/-- The names of the native functions registered by `init_builtins` in
builtin.rs.  The source stores raw function pointers (`Lfun`); the model
stores this tag and dispatches on it at the application step. -/
inductive BuiltinName where
  | add
  | sub
  | mul
  | div
  | headB
  | tailB
  | listB
  | evalB
  | joinB
  | lambdaB
  | defB
  | die
deriving DecidableEq

/-- Translation of `Lval` from lib.rs.  `Num(f64)` is modelled over `Rat`; `Fun(Lfun)`
carries the builtin's registry tag; `Lambda(Llambda)` is flattened into its
three fields `args`, `body` and the single binding frame that
`Llambda::new` creates (the source stores a one-frame `Lenv`). -/
inductive Lval where
  | Sym : String → Lval
  | Num : ℚ → Lval
  | Sexpr : List Lval → Lval
  | Qexpr : List Lval → Lval
  | Error : Lerr → Lval
  | Fun : BuiltinName → Lval
  | Lambda : List String → List Lval → List (String × Lval) → Lval

/-- One scope frame: the `Lookup = HashMap<String, Lval>` of lib.rs as an
association list with unique keys. -/
abbrev Frame := List (String × Lval)

/-- The scope chain `Lenv` of lib.rs, head = innermost frame. -/
abbrev Lenv := List Frame

/-- Model of `HashMap::insert`: replace the binding for the key if present, else add
it. -/
def frameInsert : Frame → String → Lval → Frame
  | [], k, v => [(k, v)]
  | (k', v') :: rest, k, v =>
    if k' = k then (k, v) :: rest else (k', v') :: frameInsert rest k v

/-- Model of `HashMap::get` on a frame. -/
def frameGet : Frame → String → Option Lval
  | [], _ => none
  | (k', v) :: rest, k => if k' = k then some v else frameGet rest k

/-- Translation of `Lenv::new` from lib.rs. -/
def Lenv.new : Lenv := []

/-- Translation of `Lenv::push` from lib.rs: prepend a new innermost frame. -/
def Lenv.push (env : Lenv) (f : Frame) : Lenv := f :: env

/-- Translation of `Lenv::pop` from lib.rs (the part that mutates the chain). -/
def Lenv.pop (env : Lenv) : Lenv := env.tail

/-- Translation of `Lenv::insert` from lib.rs: bind in the innermost frame only; no-op on an
empty chain (`peek_mut` returns `None`). -/
def Lenv.insert (env : Lenv) (k : String) (v : Lval) : Lenv :=
  match env with
  | [] => []
  | f :: rest => frameInsert f k v :: rest

/-- Translation of `Lenv::insert_last` from lib.rs: walk to the outermost frame and bind
there; no-op on an empty chain. -/
def Lenv.insert_last (env : Lenv) (k : String) (v : Lval) : Lenv :=
  match env with
  | [] => []
  | [f] => [frameInsert f k v]
  | f :: f' :: rest => f :: Lenv.insert_last (f' :: rest) k v

/-- Translation of `Lenv::get` from lib.rs: scan frames innermost to outermost, first
match wins. -/
def Lenv.get : Lenv → String → Option Lval
  | [], _ => none
  | f :: rest, k =>
    match frameGet f k with
    | some v => some v
    | none => Lenv.get rest k

/-- Translation of `to_num` from lib.rs. -/
def to_num : Lval → Option ℚ
  | .Num n => some n
  | _ => none

/-- Translation of `to_sym` from lib.rs. -/
def to_sym : Lval → Option String
  | .Sym s => some s
  | _ => none

/-- Translation of `to_qexpr` from lib.rs. -/
def to_qexpr : Lval → Option (List Lval)
  | .Qexpr q => some q
  | _ => none

/-- Translation of `is_qexpr` from lib.rs. -/
def is_qexpr : Lval → Bool
  | .Qexpr _ => true
  | _ => false

/-- Translation of `to_err` from lib.rs. -/
def to_err : Lval → Option Lerr
  | .Error e => some e
  | _ => none

/-- Translation of `to_lambda` from lib.rs, returning the three `Llambda` fields. -/
def to_lambda : Lval → Option (List String × List Lval × Frame)
  | .Lambda args body frame => some (args, body, frame)
  | _ => none

/-- The `operands.iter().map(f).collect::<Option<Vec<_>>>()` pattern used by
`builtin_op`, `builtin_def` and `builtin_lambda`: the first `None` aborts
the whole collection. -/
def collectOption {α : Type} (f : Lval → Option α) : List Lval → Option (List α)
  | [] => some []
  | x :: xs =>
    match f x with
    | none => none
    | some b =>
      match collectOption f xs with
      | none => none
      | some bs => some (b :: bs)

/-- Derived `PartialEq` on `Lerr` (all fields). -/
def lerrEq (a b : Lerr) : Bool :=
  a.etype == b.etype && a.details == b.details && a.message == b.message

mutual

/-- The `PartialEq for Lval` impl of lib.rs: structural on symbols, numbers,
lists and errors; any two `Fun`s are equal; two `Lambda`s are equal when
their bodies and parameter lists are equal, the captured environment is
ignored. -/
def lvalEq : Lval → Lval → Bool
  | .Sym a, .Sym b => a == b
  | .Num a, .Num b => a == b
  | .Sexpr a, .Sexpr b => lvalListEq a b
  | .Qexpr a, .Qexpr b => lvalListEq a b
  | .Error a, .Error b => lerrEq a b
  | .Fun _, .Fun _ => true
  | .Lambda a1 b1 _, .Lambda a2 b2 _ => lvalListEq b1 b2 && a1 == a2
  | _, _ => false
termination_by v _ => sizeOf v

/-- Element-wise `PartialEq` of `Vec<Lval>`. -/
def lvalListEq : List Lval → List Lval → Bool
  | [], [] => true
  | x :: xs, y :: ys => lvalEq x y && lvalListEq xs ys
  | _, _ => false
termination_by l _ => sizeOf l

end

mutual

/-- The `fmt::Debug` impl for `Lval` in lib.rs (used by the source's
`format!("{:?}", ..)` message splices; float and vector layout
approximated). -/
def lvalDebug : Lval → String
  | .Sym s => "Sym::" ++ s
  | .Num n => "Num::" ++ toString n
  | .Sexpr s => "Sexpr::[" ++ lvalListDebug s ++ "]"
  | .Qexpr q => "Qexpr::[" ++ lvalListDebug q ++ "]"
  | .Error e => "Error::" ++ e.message
  | .Fun _ => "Fun"
  | .Lambda a b _ =>
    "Lambda::\x7bargs:[" ++ String.intercalate ", " a ++ "], body:[" ++
      lvalListDebug b ++ "]\x7d"
termination_by v => sizeOf v

/-- Comma separated debug rendering of a list of values. -/
def lvalListDebug : List Lval → String
  | [] => ""
  | [x] => lvalDebug x
  | x :: xs => lvalDebug x ++ ", " ++ lvalListDebug xs
termination_by l => sizeOf l

end

/-- The left-fold reduction loop of `builtin_op` in builtin.rs (`while i <
operands.len()`), applied to the accumulator and the remaining operands.
The `match sym` arms are checked in source order, with the source's
catch-all `_ => x += y`; the division arm tests each divisor for zero
before dividing. -/
def opFold (sym : String) (x : ℚ) : List ℚ → Lval
  | [] => .Num x
  | y :: ys =>
    if sym = "+" then opFold sym (x + y) ys
    else if sym = "-" then opFold sym (x - y) ys
    else if sym = "*" then opFold sym (x * y) ys
    else if sym = "/" then
      if y = 0 then
        .Error (Lerr.new .DivZero
          ("You cannot divide " ++ toString x ++ ", or any number, by 0"))
      else opFold sym (x / y) ys
    else opFold sym (x + y) ys

/-- Translation of `builtin_op` from builtin.rs: flatten the operands to numbers (any
non-number aborts with a `BadNum` error), special-case a single operand
(unary `-` negates, every other operator returns the operand), then run the
reduction loop.  The source indexes `operands[0]` unconditionally after the
unary case, so an empty operand list panics the host: that (unreachable via
the evaluator) panic is the `none` result. -/
def builtin_op (sym : String) (operands : List Lval) : Option Lval :=
  match collectOption to_num operands with
  | none =>
    some (.Error (Lerr.new .BadNum
      ("Function " ++ sym ++ " can operate only on numbers")))
  | some nums =>
    match nums with
    | [] => none
    | [x] => some (if sym = "-" then .Num (-x) else .Num x)
    | x :: rest => some (opFold sym x rest)

/-- Translation of `builtin_add` from builtin.rs (`_env` unused, as in the source). -/
def builtin_add (env : Lenv) (operands : List Lval) : Option (Lenv × Lval) :=
  (builtin_op "+" operands).map (fun v => (env, v))

/-- Translation of `builtin_sub` from builtin.rs. -/
def builtin_sub (env : Lenv) (operands : List Lval) : Option (Lenv × Lval) :=
  (builtin_op "-" operands).map (fun v => (env, v))

/-- Translation of `builtin_mul` from builtin.rs. -/
def builtin_mul (env : Lenv) (operands : List Lval) : Option (Lenv × Lval) :=
  (builtin_op "*" operands).map (fun v => (env, v))

/-- Translation of `builtin_div` from builtin.rs. -/
def builtin_div (env : Lenv) (operands : List Lval) : Option (Lenv × Lval) :=
  (builtin_op "/" operands).map (fun v => (env, v))

/-- Translation of `builtin_exit` from builtin.rs. -/
def builtin_exit (env : Lenv) (_operands : List Lval) : Lenv × Lval :=
  (env, .Error (Lerr.new .Interrupt
    "The thread of execution has been interrupted"))

/-- Translation of `builtin_head` from builtin.rs: exactly one operand; a non-empty `Qexpr`
yields its first element rewrapped as a one-element `Qexpr`; an empty
`Qexpr` is an `EmptyList` error; anything else a `WrongType` error. -/
def builtin_head (env : Lenv) (operands : List Lval) : Lenv × Lval :=
  match operands with
  | [.Qexpr []] =>
    (env, .Error (Lerr.new .EmptyList "Function head was given empty list"))
  | [.Qexpr (x :: _)] => (env, .Qexpr [x])
  | [arg] =>
    (env, .Error (Lerr.new .WrongType
      ("Function head needed Qexpr but was given " ++ lvalDebug arg)))
  | _ =>
    (env, .Error (Lerr.new .IncorrectParamCount
      ("Function head needed 1 arg but was given " ++
        toString operands.length)))

/-- Translation of `builtin_tail` from builtin.rs. -/
def builtin_tail (env : Lenv) (operands : List Lval) : Lenv × Lval :=
  match operands with
  | [.Qexpr []] =>
    (env, .Error (Lerr.new .EmptyList "Function tail was given empty list"))
  | [.Qexpr (_ :: rest)] => (env, .Qexpr rest)
  | [arg] =>
    (env, .Error (Lerr.new .WrongType
      ("Function tail needed Qexpr but was given " ++ lvalDebug arg)))
  | _ =>
    (env, .Error (Lerr.new .IncorrectParamCount
      ("Function tail needed 1 arg but was given " ++
        toString operands.length)))

/-- Translation of `builtin_list` from builtin.rs. -/
def builtin_list (env : Lenv) (operands : List Lval) : Lenv × Lval :=
  (env, .Qexpr operands)

/-- Translation of `builtin_join` from builtin.rs: at least two operands, all `Qexpr`;
concatenates their elements. -/
def builtin_join (env : Lenv) (operands : List Lval) : Lenv × Lval :=
  if operands.length < 2 then
    (env, .Error (Lerr.new .IncorrectParamCount
      ("Function join needed 2 arg but was given " ++
        toString operands.length)))
  else if operands.any (fun o => !(is_qexpr o)) then
    (env, .Error (Lerr.new .WrongType "Function join needed Qexpr but was given"))
  else
    (env, .Qexpr (operands.foldl
      (fun acc o => match o with | .Qexpr v => acc ++ v | _ => acc) []))

/-- The binding loop of `builtin_def`: `for (i, arg) in args`, binding each
symbol to its value with `insert_last`. -/
def defFold (env : Lenv) (pairs : List (String × Lval)) : Lenv :=
  pairs.foldl (fun e p => Lenv.insert_last e p.1 p.2) env

/-- Translation of `builtin_def` from builtin.rs: needs a `Qexpr` of symbols followed by
exactly as many values; binds each symbol in the outermost frame via
`insert_last` and returns the empty `Sexpr`.  All precondition checks run
before the first insertion. -/
def builtin_def (env : Lenv) (operands : List Lval) : Lenv × Lval :=
  match operands with
  | .Qexpr q :: v :: vs =>
    (match collectOption to_sym q with
     | none =>
       (env, .Error (Lerr.new .WrongType
         "Function def needed a param list of all Symbols"))
     | some args =>
       if args.length ≠ (v :: vs).length then
         (env, .Error (Lerr.new .IncorrectParamCount
           ("Function def needed to assign " ++ toString args.length ++
             " values but was passed " ++ toString (v :: vs).length)))
       else (defFold env (args.zip (v :: vs)), .Sexpr []))
  | a :: _ :: _ =>
    (env, .Error (Lerr.new .WrongType
      ("Function def needed Qexpr but was given " ++ lvalDebug a)))
  | _ =>
    (env, .Error (Lerr.new .IncorrectParamCount
      ("Function def needed 2 args but was given " ++
        toString operands.length)))

/-- Translation of `builtin_lambda` from builtin.rs: two operands, both `Qexpr`, the first a
list of symbols; builds a `Lambda` with a fresh empty binding frame
(`Llambda::new` pushes one empty `Lookup`). -/
def builtin_lambda (env : Lenv) (operands : List Lval) : Lenv × Lval :=
  match operands with
  | [.Qexpr qa, .Qexpr qb] =>
    (match collectOption to_sym qa with
     | none =>
       (env, .Error (Lerr.new .WrongType
         "Function \\ needed a param list of all Symbols"))
     | some args => (env, .Lambda args qb []))
  | [_, _] =>
    (env, .Error (Lerr.new .WrongType
      "Function \\ needed a Qexpr for arguments and a Qexpr for body"))
  | _ =>
    (env, .Error (Lerr.new .IncorrectParamCount
      ("Function \\ needed 2 arg but was given " ++
        toString operands.length)))

/-- Translation of `add_builtin` from lib.rs. -/
def add_builtin (env : Lenv) (sym : String) (b : BuiltinName) : Lenv :=
  Lenv.insert env sym (.Fun b)

/-- Translation of `init_builtins` from builtin.rs: the registry, in registration order. -/
def init_builtins (env : Lenv) : Lenv :=
  [("+", BuiltinName.add), ("-", BuiltinName.sub), ("*", BuiltinName.mul),
   ("/", BuiltinName.div), ("head", BuiltinName.headB),
   ("tail", BuiltinName.tailB), ("list", BuiltinName.listB),
   ("eval", BuiltinName.evalB), ("join", BuiltinName.joinB),
   ("\\", BuiltinName.lambdaB), ("def", BuiltinName.defB),
   ("die", BuiltinName.die)].foldl (fun e p => add_builtin e p.1 p.2) env

/-- Translation of `init_env` from lib.rs: one global frame populated by the registry. -/
def init_env : Lenv := init_builtins (Lenv.push Lenv.new [])

/-- Modelled from the spec: step 1 of `eval_sexpr` (spec 4.2) together with
the `FromIterator<Lval> for Result<Vec<Lval>, Lerr>` impl that lib.rs
provides for the evaluator's `collect()` (the env-aware `eval.rs` itself is
missing from the tree).  Items are evaluated left to right with the
evaluator `f`, threading the environment; the first item that evaluates to
an `Error` stops the walk and becomes the verdict, the items after it are
never evaluated.  `none` propagates `f`'s failure to produce a result. -/
def evalItemsWith (f : Lenv → Lval → Option (Lenv × Lval)) :
    Lenv → List Lval → Option (Lenv × Except Lerr (List Lval))
  | env, [] => some (env, .ok [])
  | env, x :: xs =>
    match f env x with
    | none => none
    | some (env1, v) =>
      match to_err v with
      | some e => some (env1, .error e)
      | none =>
        match evalItemsWith f env1 xs with
        | none => none
        | some (env2, .error e) => some (env2, .error e)
        | some (env2, .ok vs) => some (env2, .ok (v :: vs))

/-- Modelled from the spec: the variadic marker of spec 4.3 ("a reserved
parameter name"); the spec does not name it, the conventional spelling is
used. -/
def variadicMarker : String := "&"

/-- Modelled from the spec: lambda application, spec 4.3 (the env-aware
`eval.rs` is missing from the tree).  Parameters are consumed left to right
into the lambda's captured frame; a reached variadic marker demands exactly
one following collector parameter and binds the remaining arguments to it
as a `Qexpr`; leftover arguments are an `IncorrectParamCount` error;
leftover parameters make the call partial, returning the reduced `Lambda`;
a saturated call pushes the bound frame onto the caller's chain, evaluates
the body as an `Sexpr` with `f`, and pops the frame. -/
def applyLambdaWith (f : Lenv → Lval → Option (Lenv × Lval)) (env : Lenv)
    (ps : List String) (body : List Lval) (frame : Frame) (ops : List Lval) :
    Option (Lenv × Lval) :=
  match ps, ops with
  | [], [] =>
    (match f (Lenv.push env frame) (.Sexpr body) with
     | none => none
     | some (env', r) => some (Lenv.pop env', r))
  | [], _ :: _ =>
    some (env, .Error (Lerr.new .IncorrectParamCount
      "Function was passed too many arguments"))
  | p :: ps', [] => some (env, .Lambda (p :: ps') body frame)
  | p :: ps', a :: ops' =>
    if p = variadicMarker then
      match ps' with
      | [collector] =>
        (match f (Lenv.push env
                   (frameInsert frame collector (.Qexpr (a :: ops'))))
                 (.Sexpr body) with
         | none => none
         | some (env', r) => some (Lenv.pop env', r))
      | _ =>
        some (env, .Error (Lerr.new .IncorrectParamCount
          "The variadic marker must be followed by exactly one parameter"))
    else applyLambdaWith f env ps' body (frameInsert frame p a) ops'

/-- Translation of `builtin_eval` from builtin.rs, parameterized by the evaluator it calls
back into: one operand; a `Qexpr` is rewrapped as an `Sexpr` and evaluated,
anything else is evaluated as-is. -/
def builtin_eval (f : Lenv → Lval → Option (Lenv × Lval)) (env : Lenv)
    (operands : List Lval) : Option (Lenv × Lval) :=
  match operands with
  | [.Qexpr q] => f env (.Sexpr q)
  | [arg] => f env arg
  | _ =>
    some (env, .Error (Lerr.new .IncorrectParamCount
      ("Function eval needed 1 arg but was given " ++
        toString operands.length)))

/-- Dispatch of a `Fun` value to the builtin it was registered as (the
source calls through the stored function pointer). -/
def callBuiltin (f : Lenv → Lval → Option (Lenv × Lval)) (env : Lenv)
    (b : BuiltinName) (operands : List Lval) : Option (Lenv × Lval) :=
  match b with
  | .add => builtin_add env operands
  | .sub => builtin_sub env operands
  | .mul => builtin_mul env operands
  | .div => builtin_div env operands
  | .headB => some (builtin_head env operands)
  | .tailB => some (builtin_tail env operands)
  | .listB => some (builtin_list env operands)
  | .evalB => builtin_eval f env operands
  | .joinB => some (builtin_join env operands)
  | .lambdaB => some (builtin_lambda env operands)
  | .defB => some (builtin_def env operands)
  | .die => some (builtin_exit env operands)

/-- Modelled from the spec: `eval_sexpr`, spec 4.2 steps 1-4 (the env-aware
`eval.rs` is missing from the tree).  Evaluate all items with the
short-circuit walk; an empty result is the empty `Sexpr`; a single result
is returned bare; otherwise the first element must be a `Fun` or `Lambda`
applied to the rest, anything else is a `BadOp` error. -/
def evalSexprWith (f : Lenv → Lval → Option (Lenv × Lval)) (env : Lenv)
    (items : List Lval) : Option (Lenv × Lval) :=
  match evalItemsWith f env items with
  | none => none
  | some (env1, .error e) => some (env1, .Error e)
  | some (env1, .ok vals) =>
    match vals with
    | [] => some (env1, .Sexpr [])
    | [v] => some (env1, v)
    | first :: operands =>
      match first with
      | .Fun b => callBuiltin f env1 b operands
      | .Lambda ps body frame => applyLambdaWith f env1 ps body frame operands
      | _ =>
        some (env1, .Error (Lerr.new .BadOp
          (lvalDebug first ++ " is not a valid operator")))

/-- Modelled from the spec: the evaluator entry point `eval(env, expr)` of
spec 4.2 (the env-aware `eval.rs` is missing from the tree), with an
explicit recursion budget: `none` means the budget did not suffice (the
recursion of the source is unbounded; it either returns this value or
never returns).  A `Sym` resolves through `Lenv::get`, a miss is an
`UnboundSymbol` error; an `Sexpr` goes through `eval_sexpr`; everything
else is self-evaluating. -/
def evalFuel : Nat → Lenv → Lval → Option (Lenv × Lval)
  | 0, _, _ => none
  | n + 1, env, v =>
    match v with
    | .Sym s =>
      match Lenv.get env s with
      | some w => some (env, w)
      | none =>
        some (env, .Error (Lerr.new .UnboundSymbol
          ("The symbol " ++ s ++ " has not been defined")))
    | .Sexpr items => evalSexprWith (evalFuel n) env items
    | _ => some (env, v)

/-! ## Helper lemmas -/

theorem frameGet_insert_self (fr : Frame) (k : String) (v : Lval) :
    frameGet (frameInsert fr k v) k = some v := by
  induction fr with
  | nil => simp [frameInsert, frameGet]
  | cons p rest ih =>
    obtain ⟨k', v'⟩ := p
    by_cases h : k' = k
    · simp [frameInsert, frameGet, h]
    · simp [frameInsert, frameGet, h, ih]

theorem frameGet_insert_other (fr : Frame) (k k' : String) (v : Lval)
    (h : k' ≠ k) : frameGet (frameInsert fr k' v) k = frameGet fr k := by
  induction fr with
  | nil => simp [frameInsert, frameGet, h]
  | cons p rest ih =>
    obtain ⟨k0, v0⟩ := p
    by_cases h0 : k0 = k'
    · simp [frameInsert, frameGet, h0, h]
    · simp only [frameInsert, if_neg h0]
      by_cases h1 : k0 = k
      · simp [frameGet, h1]
      · simp [frameGet, h1, ih]

theorem collectOption_length {α : Type} (f : Lval → Option α) :
    ∀ (l : List Lval) (l' : List α), collectOption f l = some l' → l'.length = l.length := by
  intro l
  induction l with
  | nil => intro l' h; simp [collectOption] at h; simp [h.symm]
  | cons x xs ih =>
    intro l' h
    rw [collectOption] at h
    cases hx : f x with
    | none => rw [hx] at h; simp at h
    | some b =>
      rw [hx] at h
      cases hxs : collectOption f xs with
      | none => rw [hxs] at h; simp at h
      | some bs =>
        rw [hxs] at h
        simp at h
        rw [← h]
        simp [ih bs hxs]

theorem collectOption_none {α : Type} (f : Lval → Option α) :
    ∀ (l : List Lval), (∃ o ∈ l, f o = none) → collectOption f l = none := by
  intro l
  induction l with
  | nil => intro h; simp at h
  | cons x xs ih =>
    intro h
    rw [collectOption]
    rcases h with ⟨o, ho, hfo⟩
    rcases List.mem_cons.mp ho with h1 | h2
    · rw [h1] at hfo; rw [hfo]
    · cases hx : f x with
      | none => rfl
      | some b => rw [ih ⟨o, h2, hfo⟩]

theorem collect_to_num_map (l : List ℚ) :
    collectOption to_num (l.map Lval.Num) = some l := by
  induction l with
  | nil => rfl
  | cons x xs ih => simp [collectOption, to_num, ih]

theorem collect_to_sym_map (l : List String) :
    collectOption to_sym (l.map Lval.Sym) = some l := by
  induction l with
  | nil => rfl
  | cons x xs ih => simp [collectOption, to_sym, ih]

/-! ## Claim C2: the head builtin -/

/-- C2: with exactly one operand that is a non-empty QExpr, `builtin_head`
returns a one-element QExpr holding the list's first element (still
wrapped); an empty QExpr operand is an `EmptyList` error; a non-QExpr
operand is a `WrongType` error.  In every case the environment is passed
through unchanged. -/
theorem head_builtin_spec (env : Lenv) (x : Lval) (rest : List Lval)
    (v : Lval) (hv : is_qexpr v = false) :
    builtin_head env [.Qexpr (x :: rest)] = (env, .Qexpr [x]) ∧
    builtin_head env [.Qexpr []] =
      (env, .Error (Lerr.new .EmptyList "Function head was given empty list")) ∧
    builtin_head env [v] =
      (env, .Error (Lerr.new .WrongType
        ("Function head needed Qexpr but was given " ++ lvalDebug v))) := by
  refine ⟨rfl, rfl, ?_⟩
  cases v <;> first
    | rfl
    | simp [is_qexpr] at hv

/-- Witness for C2 at the spec's own examples. -/
theorem head_builtin_spec_witness :
    builtin_head [] [.Qexpr [.Num 1, .Num 2, .Num 3]] = ([], .Qexpr [.Num 1]) ∧
    builtin_head [] [.Qexpr []] =
      ([], .Error (Lerr.new .EmptyList "Function head was given empty list")) ∧
    builtin_head [] [.Num 1] =
      ([], .Error (Lerr.new .WrongType
        ("Function head needed Qexpr but was given " ++ lvalDebug (.Num 1)))) :=
  head_builtin_spec [] (.Num 1) [.Num 2, .Num 3] (.Num 1) rfl

/-! ## Claim C3: symbol evaluation -/

/-- C3: evaluating a `Sym` resolves the name with `Lenv::get` and returns
the bound value; an unbound name evaluates to an `UnboundSymbol` error
value (an ordinary `Lval`, not a host failure), the environment unchanged
either way. -/
theorem symbol_eval_spec (n : Nat) (env : Lenv) (s : String) (v : Lval) :
    (Lenv.get env s = some v → evalFuel (n + 1) env (.Sym s) = some (env, v)) ∧
    (Lenv.get env s = none → evalFuel (n + 1) env (.Sym s) =
      some (env, .Error (Lerr.new .UnboundSymbol
        ("The symbol " ++ s ++ " has not been defined")))) := by
  constructor <;> intro h <;> simp [evalFuel, h]

/-- Witness for C3: a bound and an unbound lookup in a one-frame chain. -/
theorem symbol_eval_spec_witness :
    evalFuel 1 [[("a", .Num 1)]] (.Sym "a") = some ([[("a", .Num 1)]], .Num 1) ∧
    evalFuel 1 [[("a", .Num 1)]] (.Sym "b") =
      some ([[("a", .Num 1)]], .Error (Lerr.new .UnboundSymbol
        "The symbol b has not been defined")) :=
  ⟨(symbol_eval_spec 0 [[("a", .Num 1)]] "a" (.Num 1)).1 rfl,
   (symbol_eval_spec 0 [[("a", .Num 1)]] "b" (.Num 1)).2 rfl⟩

/-! ## Claim C7: empty and singleton SExpr -/

/-- C7: an empty `Sexpr` evaluates to an empty `Sexpr`; an `Sexpr` of one
item whose evaluation succeeds without an `Error` evaluates to that single
result itself, bare, with no callable check applied to it. -/
theorem sexpr_empty_singleton_spec (n : Nat) (env env1 : Lenv) (x v : Lval) :
    (evalFuel (n + 1) env (.Sexpr []) = some (env, .Sexpr [])) ∧
    (evalFuel n env x = some (env1, v) → to_err v = none →
      evalFuel (n + 1) env (.Sexpr [x]) = some (env1, v)) := by
  refine ⟨rfl, fun h hv => ?_⟩
  simp [evalFuel, evalSexprWith, evalItemsWith, h, hv]

/-- Witness for C7: the no-op value and a transparent singleton wrap of a
non-callable number. -/
theorem sexpr_empty_singleton_spec_witness :
    evalFuel 2 [] (.Sexpr []) = some ([], .Sexpr []) ∧
    evalFuel 2 [] (.Sexpr [.Num 7]) = some ([], .Num 7) :=
  ⟨(sexpr_empty_singleton_spec 1 [] [] (.Num 7) (.Num 7)).1,
   (sexpr_empty_singleton_spec 1 [] [] (.Num 7) (.Num 7)).2 rfl rfl⟩

/-! ## Claim C8: unary arithmetic -/

/-- C8: a single numeric operand to the minus builtin is negated; a single
numeric operand to plus, times or divide is returned unchanged, with no
type or arity error; in particular the forms (- 5) and (+ 5) evaluate to
-5 and 5. -/
theorem unary_arith_spec (x : ℚ) (env : Lenv) :
    builtin_sub env [.Num x] = some (env, .Num (-x)) ∧
    builtin_add env [.Num x] = some (env, .Num x) ∧
    builtin_mul env [.Num x] = some (env, .Num x) ∧
    builtin_div env [.Num x] = some (env, .Num x) ∧
    evalFuel 3 init_env (.Sexpr [.Sym "-", .Num 5]) =
      some (init_env, .Num (-5)) ∧
    evalFuel 3 init_env (.Sexpr [.Sym "+", .Num 5]) =
      some (init_env, .Num 5) :=
  ⟨rfl, rfl, rfl, rfl, rfl, rfl⟩

/-! ## Claim C10: lambda equality ignores the captured environment -/

mutual

/-- Reflexivity of the modelled `PartialEq` on `Lval`. -/
theorem lvalEq_refl : (v : Lval) → lvalEq v v = true
  | .Sym a => by simp [lvalEq]
  | .Num a => by simp [lvalEq]
  | .Sexpr a => by rw [lvalEq]; exact lvalListEq_refl a
  | .Qexpr a => by rw [lvalEq]; exact lvalListEq_refl a
  | .Error e => by simp [lvalEq, lerrEq]
  | .Fun b => by rw [lvalEq]
  | .Lambda a b e => by
      rw [lvalEq]
      simp [lvalListEq_refl b]
termination_by v => sizeOf v

/-- Element-wise reflexivity for lists of values. -/
theorem lvalListEq_refl : (l : List Lval) → lvalListEq l l = true
  | [] => by rw [lvalListEq]
  | x :: xs => by
      rw [lvalListEq]
      simp [lvalEq_refl x, lvalListEq_refl xs]
termination_by l => sizeOf l

end

/-- C10: the `PartialEq` of two Lambda values compares only the bodies and
the parameter lists and ignores the captured frame entirely; in particular
two lambdas with identical parameters and identical body are equal for any
two captured frames, e.g. even when one frame holds a binding the other
lacks. -/
theorem lambda_eq_ignores_env_spec (a1 a2 : List String)
    (b1 b2 : List Lval) (e1 e2 : Frame) :
    (lvalEq (.Lambda a1 b1 e1) (.Lambda a2 b2 e2) =
      (lvalListEq b1 b2 && a1 == a2)) ∧
    lvalEq (.Lambda a1 b1 e1) (.Lambda a1 b1 e2) = true ∧
    lvalEq (.Lambda ["x"] [.Sym "x"] [("a", .Num 1)])
      (.Lambda ["x"] [.Sym "x"] []) = true := by
  refine ⟨by rw [lvalEq], ?_, ?_⟩
  · rw [lvalEq]
    simp [lvalListEq_refl b1]
  · rw [lvalEq]
    simp [lvalListEq_refl [Lval.Sym "x"]]

/-! ## Claim C1: left-to-right evaluation, first error short-circuits -/

/-- If an error-free prefix walk reaches an item that evaluates to an
`Error`, the whole item walk stops there with that error, whatever comes
after; the items after the error contribute nothing, not even to the
threaded environment. -/
theorem evalItemsWith_ok_append (f : Lenv → Lval → Option (Lenv × Lval))
    (pre : List Lval) (env env1 env2 : Lenv) (vals : List Lval) (x : Lval)
    (e : Lerr) (post : List Lval)
    (hpre : evalItemsWith f env pre = some (env1, .ok vals))
    (hx : f env1 x = some (env2, .Error e)) :
    evalItemsWith f env (pre ++ x :: post) = some (env2, .error e) := by
  induction pre generalizing env vals with
  | nil =>
    simp [evalItemsWith] at hpre
    obtain ⟨rfl, rfl⟩ := hpre
    simp [evalItemsWith, hx, to_err]
  | cons p ps ih =>
    rw [List.cons_append, evalItemsWith]
    rw [evalItemsWith] at hpre
    cases hf : f env p with
    | none => rw [hf] at hpre; simp at hpre
    | some pr =>
      obtain ⟨envp, vp⟩ := pr
      rw [hf] at hpre
      simp only [] at hpre
      simp at hpre ⊢
      cases hvp : to_err vp with
      | some ev => simp [hvp] at hpre
      | none =>
        simp only [hvp] at hpre ⊢
        cases hrest : evalItemsWith f envp ps with
        | none => simp [hrest] at hpre
        | some rr =>
          obtain ⟨env2', r⟩ := rr
          cases r with
          | error e' => simp [hrest] at hpre
          | ok vs =>
            simp only [hrest] at hpre
            simp at hpre
            obtain ⟨rfl, -⟩ := hpre
            rw [ih envp vs hrest]

/-- C1: an `Sexpr`'s items are evaluated left to right; when an item
evaluates to an `Error` after an error-free prefix, that first `Error` is
the result of the whole `Sexpr` and the items after it are never evaluated
(the conclusion does not depend on them at all). -/
theorem sexpr_first_error_short_circuit (n : Nat) (env env1 env2 : Lenv)
    (pre post : List Lval) (x : Lval) (vals : List Lval) (e : Lerr)
    (hpre : evalItemsWith (evalFuel n) env pre = some (env1, .ok vals))
    (hx : evalFuel n env1 x = some (env2, .Error e)) :
    evalFuel (n + 1) env (.Sexpr (pre ++ x :: post)) =
      some (env2, .Error e) := by
  have h := evalItemsWith_ok_append (evalFuel n) pre env env1 env2 vals x e
    post hpre hx
  simp [evalFuel, evalSexprWith, h]

/-- Witness for C1: in (1 nope later), the unbound symbol nope errors after
the error-free prefix (1), and the whole form is that error; the trailing
item is an arbitrary unevaluated leftover. -/
theorem sexpr_first_error_short_circuit_witness :
    evalFuel 3 [] (.Sexpr [.Num 1, .Sym "nope", .Sym "later"]) =
      some ([], .Error (Lerr.new .UnboundSymbol
        "The symbol nope has not been defined")) :=
  sexpr_first_error_short_circuit 2 [] [] [] [.Num 1] [.Sym "later"]
    (.Sym "nope") [.Num 1]
    (Lerr.new .UnboundSymbol "The symbol nope has not been defined") rfl rfl

/-! ## Claim C6: division checks every divisor for zero mid-fold -/

/-- One reduction step of the division fold: the divisor is tested for zero
before the division happens. -/
theorem opFold_div_step (x y : ℚ) (ys : List ℚ) :
    opFold "/" x (y :: ys) =
      if y = 0 then
        .Error (Lerr.new .DivZero
          ("You cannot divide " ++ toString x ++ ", or any number, by 0"))
      else opFold "/" (x / y) ys := rfl

/-- A zero anywhere among the divisors aborts the fold with a `DivZero`
error. -/
theorem opFold_div_zero_mem (ys : List ℚ) :
    ∀ x : ℚ, (0 : ℚ) ∈ ys →
      ∃ m, opFold "/" x ys = .Error (Lerr.new .DivZero m) := by
  induction ys with
  | nil => intro x h; simp at h
  | cons y ys ih =>
    intro x h
    rw [opFold_div_step]
    by_cases hy : y = 0
    · exact ⟨_, by rw [if_pos hy]⟩
    · have hmem : (0 : ℚ) ∈ ys := by
        rcases List.mem_cons.mp h with h1 | h2
        · exact absurd h1.symm hy
        · exact h2
      rw [if_neg hy]
      exact ih (x / y) hmem

/-- C6: for two or more numeric operands with a zero divisor anywhere among
the operands after the first, the division builtin returns a `DivByZero`
error - the check happens at each pairwise step, before dividing,
regardless of the zero's position. -/
theorem div_zero_divisor_spec (nums : List ℚ) (h2 : 2 ≤ nums.length)
    (hz : (0 : ℚ) ∈ nums.tail) :
    ∃ m, builtin_op "/" (nums.map .Num) =
      some (.Error (Lerr.new .DivZero m)) := by
  match nums, h2 with
  | x :: y :: rest, _ =>
    have hcol : collectOption to_num ((x :: y :: rest).map Lval.Num) =
        some (x :: y :: rest) := collect_to_num_map (x :: y :: rest)
    have htail : (0 : ℚ) ∈ y :: rest := hz
    obtain ⟨m, hm⟩ := opFold_div_zero_mem (y :: rest) x htail
    refine ⟨m, ?_⟩
    rw [builtin_op, hcol]
    simp [hm]

/-- Witness for C6 at the spec's two examples, (/ 1 0) and (/ 6 3 0). -/
theorem div_zero_divisor_spec_witness :
    (∃ m, builtin_op "/" ([1, 0].map .Num) =
      some (.Error (Lerr.new .DivZero m))) ∧
    (∃ m, builtin_op "/" ([6, 3, 0].map .Num) =
      some (.Error (Lerr.new .DivZero m))) :=
  ⟨div_zero_divisor_spec [1, 0] (by decide) (by decide),
   div_zero_divisor_spec [6, 3, 0] (by decide) (by decide)⟩

/-! ## Claim C5: def binds in the global frame; failed preconditions leave
the environment untouched -/

/-- Binding with `insert_last` rewrites only the outermost frame of a non-empty chain. -/
theorem insert_last_append (k : String) (v : Lval) :
    ∀ (pre : Lenv) (g : Frame),
      Lenv.insert_last (pre ++ [g]) k v = pre ++ [frameInsert g k v] := by
  intro pre
  induction pre with
  | nil => intro g; rfl
  | cons f fs ih =>
    intro g
    cases fs with
    | nil => rfl
    | cons f' fs' =>
      show f :: Lenv.insert_last ((f' :: fs') ++ [g]) k v = _
      rw [ih g]
      rfl

/-- The `def` binding loop only ever rewrites the outermost frame. -/
theorem defFold_append (pairs : List (String × Lval)) :
    ∀ (pre : Lenv) (g : Frame),
      defFold (pre ++ [g]) pairs =
        pre ++ [pairs.foldl (fun fr p => frameInsert fr p.1 p.2) g] := by
  induction pairs with
  | nil => intro pre g; rfl
  | cons p ps ih =>
    intro pre g
    show defFold (Lenv.insert_last (pre ++ [g]) p.1 p.2) ps = _
    rw [insert_last_append, ih]
    rfl

/-- Later insertions under different keys do not disturb a lookup. -/
theorem foldl_insert_preserve (s : String) :
    ∀ (pairs : List (String × Lval)) (fr : Frame),
      (∀ p ∈ pairs, p.1 ≠ s) →
      frameGet (pairs.foldl (fun f p => frameInsert f p.1 p.2) fr) s =
        frameGet fr s := by
  intro pairs
  induction pairs with
  | nil => intro fr _; rfl
  | cons p ps ih =>
    intro fr h
    show frameGet (ps.foldl (fun f p => frameInsert f p.1 p.2)
      (frameInsert fr p.1 p.2)) s = _
    rw [ih (frameInsert fr p.1 p.2) (fun q hq => h q (List.mem_cons_of_mem p hq))]
    exact frameGet_insert_other fr s p.1 p.2 (h p (List.mem_cons_self p ps))

/-- Folding distinct symbol/value pairs into a frame makes each symbol look
up its own value. -/
theorem foldl_insert_get :
    ∀ (syms : List String) (vals : List Lval) (fr : Frame),
      syms.Nodup → syms.length = vals.length →
      ∀ (i : Nat) (hi : i < syms.length) (hi' : i < vals.length),
        frameGet ((syms.zip vals).foldl (fun f p => frameInsert f p.1 p.2) fr)
          (syms.get ⟨i, hi⟩) = some (vals.get ⟨i, hi'⟩) := by
  intro syms
  induction syms with
  | nil => intro vals fr _ _ i hi; simp at hi
  | cons s ss ih =>
    intro vals fr hnd hlen i hi hi'
    cases vals with
    | nil => simp at hlen
    | cons v vs =>
      cases i with
      | zero =>
        show frameGet ((ss.zip vs).foldl (fun f p => frameInsert f p.1 p.2)
          (frameInsert fr s v)) s = some v
        rw [foldl_insert_preserve s (ss.zip vs) (frameInsert fr s v) ?_]
        · exact frameGet_insert_self fr s v
        · intro p hp hps
          have hmem : p.1 ∈ ss := (List.of_mem_zip hp).1
          rw [hps] at hmem
          exact (List.nodup_cons.mp hnd).1 hmem
      | succ j =>
        have hnd' : ss.Nodup := (List.nodup_cons.mp hnd).2
        have hlen' : ss.length = vs.length := by simpa using hlen
        have hj : j < ss.length := by simpa using hi
        have hj' : j < vs.length := by simpa using hi'
        show frameGet ((ss.zip vs).foldl (fun f p => frameInsert f p.1 p.2)
          (frameInsert fr s v)) (ss.get ⟨j, hj⟩) = some (vs.get ⟨j, hj'⟩)
        exact ih vs (frameInsert fr s v) hnd' hlen' j hj hj'

/-- C5: a call of the def builtin with a QExpr of n distinct symbols and n
values binds each symbol to its value in the outermost (global) frame only
- all inner frames come back untouched - and returns the empty SExpr; a
call that fails any precondition (fewer than two operands, a non-QExpr
first operand, a non-symbol in the QExpr, or a symbol/value count
mismatch) returns an Error with the environment completely unchanged. -/
theorem def_builtin_spec (pre : Lenv) (genv : Frame) (syms : List String)
    (vals : List Lval) (hnd : syms.Nodup) (hlen : syms.length = vals.length)
    (hv : vals ≠ []) :
    (builtin_def (pre ++ [genv]) (.Qexpr (syms.map .Sym) :: vals) =
       (pre ++ [(syms.zip vals).foldl (fun f p => frameInsert f p.1 p.2) genv],
        .Sexpr [])) ∧
    (∀ (i : Nat) (hi : i < syms.length) (hi' : i < vals.length),
       frameGet ((syms.zip vals).foldl (fun f p => frameInsert f p.1 p.2) genv)
         (syms.get ⟨i, hi⟩) = some (vals.get ⟨i, hi'⟩)) ∧
    (∀ (env : Lenv) (ops : List Lval), ops.length < 2 →
       builtin_def env ops = (env, .Error (Lerr.new .IncorrectParamCount
         ("Function def needed 2 args but was given " ++
           toString ops.length)))) ∧
    (∀ (env : Lenv) (a b : Lval) (rest : List Lval), is_qexpr a = false →
       builtin_def env (a :: b :: rest) = (env, .Error (Lerr.new .WrongType
         ("Function def needed Qexpr but was given " ++ lvalDebug a)))) ∧
    (∀ (env : Lenv) (q : List Lval) (b : Lval) (rest : List Lval),
       (∃ w ∈ q, to_sym w = none) →
       builtin_def env (.Qexpr q :: b :: rest) =
         (env, .Error (Lerr.new .WrongType
           "Function def needed a param list of all Symbols"))) ∧
    (∀ (env : Lenv) (syms2 : List String) (b : Lval) (rest : List Lval),
       syms2.length ≠ (b :: rest).length →
       builtin_def env (.Qexpr (syms2.map .Sym) :: b :: rest) =
         (env, .Error (Lerr.new .IncorrectParamCount
           ("Function def needed to assign " ++ toString syms2.length ++
             " values but was passed " ++ toString (b :: rest).length)))) := by
  refine ⟨?_, ?_, ?_, ?_, ?_, ?_⟩
  · cases vals with
    | nil => exact absurd rfl hv
    | cons v vs =>
      rw [builtin_def]
      rw [collect_to_sym_map]
      have hl : syms.length = (v :: vs).length := hlen
      simp only [List.length_map, hl, ne_eq, not_true_eq_false, if_false,
        ite_false]
      rw [defFold_append]
  · intro i hi hi'
    exact foldl_insert_get syms vals genv hnd hlen i hi hi'
  · intro env ops h
    match ops, h with
    | [], _ => rfl
    | [a], _ => cases a <;> rfl
  · intro env a b rest ha
    cases a <;> first
      | rfl
      | simp [is_qexpr] at ha
  · intro env q b rest hq
    rw [builtin_def, collectOption_none to_sym q hq]
  · intro env syms2 b rest h
    rw [builtin_def, collect_to_sym_map]
    simp [h]
    simpa using h

/-- Witness for C5: def over two frames binds both symbols in the outermost
frame, the inner frame untouched; an arity failure leaves the two-frame
environment exactly as it was. -/
theorem def_builtin_spec_witness :
    builtin_def [[("q", .Num 99)], []]
        [.Qexpr [.Sym "a", .Sym "b"], .Num 1, .Num 2] =
      ([[("q", .Num 99)], [("a", .Num 1), ("b", .Num 2)]], .Sexpr []) ∧
    frameGet [("a", .Num 1), ("b", .Num 2)] "b" = some (.Num 2) ∧
    builtin_def [[("g", .Num 7)]] [.Qexpr [.Sym "a"]] =
      ([[("g", .Num 7)]], .Error (Lerr.new .IncorrectParamCount
        "Function def needed 2 args but was given 1")) :=
  have h := def_builtin_spec [[("q", .Num 99)]] [] ["a", "b"]
    [.Num 1, .Num 2] (by decide) (by decide) (List.cons_ne_nil _ _)
  ⟨h.1, h.2.1 1 (by decide) (by decide),
   h.2.2.1 [[("g", .Num 7)]] [.Qexpr [.Sym "a"]] (by decide)⟩

/-! ## Claim C4: partial application / currying -/

/-- Counterexample to C4 as stated: the lambda (backslash, params as the
quoted list (marker a b), body (+ a b)) has three parameters and is applied
to a single argument - fewer arguments than parameters - yet the
application does not return a new Lambda value: the variadic marker is
reached, its parameter-shape check fails, and the result is an
IncorrectParamCount Error. -/
theorem lambda_curry_counterexample :
    evalFuel 20 init_env
      (.Sexpr [.Sexpr [.Sym "\\",
        .Qexpr [.Sym "&", .Sym "a", .Sym "b"],
        .Qexpr [.Sym "+", .Sym "a", .Sym "b"]], .Num 1]) =
      some (init_env, .Error (Lerr.new .IncorrectParamCount
        "The variadic marker must be followed by exactly one parameter")) := rfl

/-- A non-marker parameter consumes one argument into the captured frame. -/
theorem applyLambdaWith_step (g : Lenv → Lval → Option (Lenv × Lval))
    (env : Lenv) (p : String) (ps' : List String) (body : List Lval)
    (frame : Frame) (a : Lval) (ops' : List Lval)
    (h : ¬ p = variadicMarker) :
    applyLambdaWith g env (p :: ps') body frame (a :: ops') =
      applyLambdaWith g env ps' body (frameInsert frame p a) ops' := by
  rw [applyLambdaWith.eq_def]
  simp [h]

/-- C4 as amended: for every lambda applied to fewer argument values than
it has parameters, provided the variadic marker is not among the consumed
parameters, the application returns a new Lambda whose parameter list is
the original minus the consumed prefix, and applying that returned lambda
to the remaining arguments yields exactly the same result as the fully
saturated call; in particular the nested form (((backslash (a b) (+ a b))
2) 3) evaluates to 5 while the inner partial form evaluates to a Lambda. -/
theorem lambda_curry_spec (g : Lenv → Lval → Option (Lenv × Lval))
    (env : Lenv) (ps : List String) (body : List Lval) (frame : Frame)
    (args1 args2 : List Lval) (hlt : args1.length < ps.length)
    (hm : variadicMarker ∉ ps.take args1.length) :
    (∃ frame2,
       applyLambdaWith g env ps body frame args1 =
         some (env, .Lambda (ps.drop args1.length) body frame2) ∧
       applyLambdaWith g env (ps.drop args1.length) body frame2 args2 =
         applyLambdaWith g env ps body frame (args1 ++ args2)) ∧
    evalFuel 20 init_env
      (.Sexpr [.Sexpr [.Sexpr [.Sym "\\",
        .Qexpr [.Sym "a", .Sym "b"],
        .Qexpr [.Sym "+", .Sym "a", .Sym "b"]], .Num 2], .Num 3]) =
      some (init_env, .Num 5) ∧
    (evalFuel 20 init_env
      (.Sexpr [.Sexpr [.Sym "\\",
        .Qexpr [.Sym "a", .Sym "b"],
        .Qexpr [.Sym "+", .Sym "a", .Sym "b"]], .Num 2])).map
        (fun p => (to_lambda p.2).isSome) = some true := by
  refine ⟨?_, ?_, rfl⟩
  · induction args1 generalizing ps frame with
    | nil =>
      match ps, hlt with
      | p :: ps', _ =>
        refine ⟨frame, rfl, rfl⟩
    | cons a as ih =>
      match ps, hlt with
      | p :: ps', hlt =>
        simp only [List.length_cons, List.take_succ_cons, List.mem_cons] at hm
        push_neg at hm
        obtain ⟨hne, hm'⟩ := hm
        have hlt' : as.length < ps'.length := by
          simpa using hlt
        obtain ⟨frame2, h1, h2⟩ := ih ps' (frameInsert frame p a) hlt' hm'
        refine ⟨frame2, ?_, ?_⟩
        · rw [applyLambdaWith_step g env p ps' body frame a as
            (fun hc => hne hc.symm)]
          simp only [List.length_cons, List.drop_succ_cons]
          exact h1
        · simp only [List.length_cons, List.drop_succ_cons]
          rw [h2, List.cons_append]
          rw [applyLambdaWith_step g env p ps' body frame a (as ++ args2)
            (fun hc => hne hc.symm)]
  · rw [show (5 : ℚ) = 2 + 3 by norm_num]
    rfl

/-- Witness for C4 as amended: the lambda with parameters (a b) applied to
the single argument 2 yields the one-parameter Lambda over b, and feeding
it 3 agrees with the saturated two-argument call. -/
theorem lambda_curry_spec_witness :
    ∃ frame2,
      applyLambdaWith (evalFuel 5) [] ["a", "b"]
          [.Sym "+", .Sym "a", .Sym "b"] [] [.Num 2] =
        some ([], .Lambda ["b"] [.Sym "+", .Sym "a", .Sym "b"] frame2) ∧
      applyLambdaWith (evalFuel 5) [] ["b"]
          [.Sym "+", .Sym "a", .Sym "b"] frame2 [.Num 3] =
        applyLambdaWith (evalFuel 5) [] ["a", "b"]
          [.Sym "+", .Sym "a", .Sym "b"] [] [.Num 2, .Num 3] :=
  (lambda_curry_spec (evalFuel 5) [] ["a", "b"]
    [.Sym "+", .Sym "a", .Sym "b"] [] [.Num 2] [.Num 3]
    (by decide) (by decide)).1

/-! ## Claim C9: totality of evaluation -/

/-- The environment produced by evaluating (def (quoted x) (quoted (eval
x))) in the freshly initialised global environment: x is bound to the
quoted form (eval x). -/
def cycleEnv : Lenv :=
  (builtin_def init_env [.Qexpr [.Sym "x"], .Qexpr [.Sym "eval", .Sym "x"]]).1

/-- Evaluation of the value never completes: no recursion budget, however
large, suffices.  The source's recursion is unbounded, so on such an input
the host never returns a Value (it exhausts its stack instead). -/
def NeverReturns (env : Lenv) (v : Lval) : Prop :=
  ∀ n, evalFuel n env v = none

/-- One unfolding of the cyclic evaluation: each round of (eval x) in
`cycleEnv` reduces to the same evaluation with one budget step spent. -/
theorem cycle_step (k : Nat) :
    evalFuel (k + 2) cycleEnv (.Sexpr [.Sym "eval", .Sym "x"]) =
      evalFuel (k + 1) cycleEnv (.Sexpr [.Sym "eval", .Sym "x"]) := rfl

/-- Counterexample to C9 as stated: after the well-formed top-level form
(def (quoted x) (quoted (eval x))), evaluating (eval x) never returns a
Value - the evaluation entry point is not total. -/
theorem eval_totality_counterexample :
    NeverReturns cycleEnv (.Sexpr [.Sym "eval", .Sym "x"]) := by
  intro n
  induction n with
  | zero => rfl
  | succ m ih =>
    cases m with
    | zero => rfl
    | succ k => exact (cycle_step k).trans ih

/-- C9 as amended: every failure the builtins report is delivered in-band
as a structured Error value - arithmetic on a non-empty operand list
always produces a value (the source's only indexing panic is unreachable
there), a non-numeric operand gives a BadNum Error, and a head arity
violation gives an IncorrectParamCount Error - but the evaluation entry
point itself is not total: self-referential definitions recurse without
end. -/
theorem inband_error_spec (sym : String) (ops : List Lval) (env : Lenv) :
    (ops ≠ [] → ∃ v, builtin_op sym ops = some v) ∧
    ((∃ o ∈ ops, to_num o = none) →
      builtin_op sym ops = some (.Error (Lerr.new .BadNum
        ("Function " ++ sym ++ " can operate only on numbers")))) ∧
    (ops.length ≠ 1 →
      builtin_head env ops = (env, .Error (Lerr.new .IncorrectParamCount
        ("Function head needed 1 arg but was given " ++
          toString ops.length)))) := by
  refine ⟨?_, ?_, ?_⟩
  · intro hne
    rw [builtin_op]
    cases hcol : collectOption to_num ops with
    | none => exact ⟨_, rfl⟩
    | some nums =>
      match nums, collectOption_length to_num ops nums hcol with
      | n1 :: rest, _ =>
        cases rest with
        | nil => exact ⟨_, rfl⟩
        | cons n2 rest' => exact ⟨_, rfl⟩
      | [], hlen =>
        cases ops with
        | nil => exact absurd rfl hne
        | cons o os => simp at hlen
  · intro h
    rw [builtin_op, collectOption_none to_num ops h]
  · intro h
    match ops with
    | [] => rfl
    | [a] => exact absurd rfl h
    | a :: b :: rest =>
      cases a <;> first
        | rfl
        | (rename_i q
           cases q <;> rfl)

/-- Witness for C9 as amended: a symbol operand to plus is a BadNum Error,
never a host failure; a zero-operand head call is an arity Error. -/
theorem inband_error_spec_witness :
    (∃ v, builtin_op "+" [.Sym "z"] = some v) ∧
    builtin_op "+" [.Sym "z"] = some (.Error (Lerr.new .BadNum
      "Function + can operate only on numbers")) ∧
    builtin_head [] [] = ([], .Error (Lerr.new .IncorrectParamCount
      "Function head needed 1 arg but was given 0")) :=
  have h := inband_error_spec "+" [.Sym "z"] []
  have h0 := inband_error_spec "+" [] []
  ⟨h.1 (List.cons_ne_nil _ _),
   h.2.1 ⟨.Sym "z", List.mem_cons_self _ _, rfl⟩,
   h0.2.2 (by decide)⟩
